import Mathlib

/-!
Verification of the face-matching core of a React-Native attendance app.

The repository contains two near-duplicate implementations of the matcher:

* a worklet-safe utilities module (`src/unnamed/part_003`, exporting
  `ensureArray`, `normalizeEmbedding`, `cosineSimilarity`, `findBestMatch`,
  `SIMILARITY_THRESHOLD`), which treats malformed inputs defensively
  (length mismatch gives similarity `0`, zero denominator gives `0`,
  empty query gives no match) — embedded below in namespace `FaceUtils`;
* `src/lib/faceRecognition.ts`, whose `cosineSimilarity` throws on a
  length mismatch and divides without a zero-denominator guard — embedded
  below in namespace `FaceLib`, with the throw modeled as `Except.error`.

JavaScript numbers are modeled as real numbers (`ℝ`).  The one place the
model departs from IEEE semantics is division by zero: JS produces `NaN`
(and every comparison against `NaN` is false), while Lean's `ℝ` yields `0`
(and `0.6 ≤ 0` is false), so the two agree on every branch the matcher
actually takes, since the only comparison applied to a similarity value is
against the threshold `0.6 > 0`.  Accumulation order of the JS loops is
preserved up to associativity/commutativity of real addition.
-/

/-- A JavaScript value that can reach `ensureArray`: `null`/`undefined`
(or any other falsy value), a plain `Array` of numbers, a `Float32Array`
(carrying the same elements), or a plain object with numeric keys, modeled
as a partial map from indices to numbers (`none` = the key is absent,
i.e. `input[i] === undefined`). -/
inductive JSInput where
  | null : JSInput
  | arr (xs : List ℝ) : JSInput
  | float32 (xs : List ℝ) : JSInput
  | obj (f : Nat → Option ℝ) : JSInput

/-- Sum of squares accumulated by the JS loops (`norm += v[i] * v[i]`). -/
def sumSq : List ℝ → ℝ
  | [] => 0
  | x :: xs => x * x + sumSq xs

/-- Dot product accumulated by the JS loop (`dotProduct += a[i] * b[i]`);
the loop runs over indices of the first list, which at every call site is
only reached when the two lists have equal length. -/
def dotList : List ℝ → List ℝ → ℝ
  | a :: as, b :: bs => a * b + dotList as bs
  | _, _ => 0

namespace FaceUtils

/-- `export const SIMILARITY_THRESHOLD = 0.6;` (src/unnamed/part_003, line 39). -/
def SIMILARITY_THRESHOLD : ℝ := 0.6

/-- The object branch of `ensureArray`:
`while (input[i] !== undefined && i < 128) { result.push(Number(input[i])); i++; }`
reading key `i` with `fuel` iterations left out of the initial 128. -/
def objCollect (f : Nat → Option ℝ) : Nat → Nat → List ℝ
  | _, 0 => []
  | i, fuel + 1 =>
    match f i with
    | none => []
    | some x => x :: objCollect f (i + 1) fuel

/-- `ensureArray` (src/unnamed/part_003, lines 62-77): falsy input gives
`[]`, an `Array` is returned as is, a `Float32Array` is copied via
`Array.from`, and an object with numeric keys is read at consecutive keys
`0, 1, 2, ...`, stopping at the first absent key or at index 128. -/
def ensureArray : JSInput → List ℝ
  | .null => []
  | .arr xs => xs
  | .float32 xs => xs
  | .obj f => objCollect f 0 128

/-- `normalizeEmbedding` (src/unnamed/part_003, lines 130-147):
`norm = sqrt (Σ v[i]^2)`; if `norm === 0` the input is returned as is
(`Array.from` of a list is the list itself), otherwise every component is
divided by `norm`. -/
noncomputable def normalizeEmbedding (embedding : List ℝ) : List ℝ :=
  let norm := Real.sqrt (sumSq embedding)
  if norm = 0 then embedding
  else embedding.map (fun x => x / norm)

/-- `cosineSimilarity` (src/unnamed/part_003, lines 159-192): both inputs
go through `ensureArray`; a length mismatch gives `0`; a zero denominator
`sqrt norm1 * sqrt norm2` gives `0`; otherwise `dot / denom`. -/
noncomputable def cosineSimilarity (embedding1 embedding2 : JSInput) : ℝ :=
  let a_arr := ensureArray embedding1
  let b_arr := ensureArray embedding2
  if a_arr.length ≠ b_arr.length then 0
  else
    let dotProduct := dotList a_arr b_arr
    let norm1 := sumSq a_arr
    let norm2 := sumSq b_arr
    let denom := Real.sqrt norm1 * Real.sqrt norm2
    if denom = 0 then 0 else dotProduct / denom

/-- One enrollment record as consumed by `findBestMatch`
(`{ studentId: string; embedding: number[] }`); the embedding is kept as a
raw JS value because worklet serialization may hand the matcher an object
with numeric keys instead of an array. -/
structure StoredEmbedding where
  studentId : String
  embedding : JSInput

end FaceUtils

/-- The result record `{ studentId: string; similarity: number }` of both
`findBestMatch` implementations. -/
structure BestMatch where
  studentId : String
  similarity : ℝ

namespace FaceUtils

/-- The similarity the `findBestMatch` loop computes for one stored record:
`cosineSimilarity(liveArr, stored.embedding)` where `liveArr` is already a
plain array. -/
noncomputable def simTo (liveArr : List ℝ) (stored : StoredEmbedding) : ℝ :=
  cosineSimilarity (.arr liveArr) stored.embedding

/-- One iteration of the `findBestMatch` loop (src/unnamed/part_003,
lines 230-246): if `similarity >= SIMILARITY_THRESHOLD` and there is no
best candidate yet or `similarity > bestMatch.similarity` strictly, the
record becomes the new best candidate; the threshold is abstracted as a
parameter `t` (the source uses the constant `SIMILARITY_THRESHOLD`). -/
noncomputable def matchStep (t : ℝ) (liveArr : List ℝ)
    (best : Option BestMatch) (stored : StoredEmbedding) : Option BestMatch :=
  let similarity := simTo liveArr stored
  if t ≤ similarity then
    match best with
    | none => some ⟨stored.studentId, similarity⟩
    | some b =>
      if b.similarity < similarity then some ⟨stored.studentId, similarity⟩
      else some b
  else best

/-- `findBestMatch` (src/unnamed/part_003, lines 209-257) with the
threshold constant abstracted as the parameter `t`: an empty enrollment
list gives `null`; a query whose `ensureArray` image is empty gives
`null`; otherwise the loop scans the records in order, starting from
`bestMatch = null`. -/
noncomputable def findBestMatchWith (t : ℝ) (liveEmbedding : JSInput)
    (storedEmbeddings : List StoredEmbedding) : Option BestMatch :=
  if storedEmbeddings.length = 0 then none
  else
    let liveArr := ensureArray liveEmbedding
    if liveArr.length = 0 then none
    else storedEmbeddings.foldl (matchStep t liveArr) none

/-- `findBestMatch` exactly as in the source, where the comparison is
against the module constant `SIMILARITY_THRESHOLD = 0.6`. -/
noncomputable def findBestMatch (liveEmbedding : JSInput)
    (storedEmbeddings : List StoredEmbedding) : Option BestMatch :=
  findBestMatchWith SIMILARITY_THRESHOLD liveEmbedding storedEmbeddings

end FaceUtils

namespace FaceLib

/-- `const SIMILARITY_THRESHOLD = 0.6;` (src/lib/faceRecognition.ts, line 51). -/
def SIMILARITY_THRESHOLD : ℝ := 0.6

/-- One enrollment record as typed in src/lib/faceRecognition.ts
(`{ studentId: string; embedding: number[] }`, a plain number array). -/
structure StoredEmbedding where
  studentId : String
  embedding : List ℝ

/-- `cosineSimilarity` (src/lib/faceRecognition.ts, lines 350-370): a
length mismatch THROWS (`Except.error` here); otherwise the division
`dot / (sqrt norm1 * sqrt norm2)` is performed with no zero-denominator
guard.  (When the denominator is zero, JS returns `NaN` — which every
later `>=` comparison rejects — while real division yields `0`, which the
threshold comparison rejects just the same.) -/
noncomputable def cosineSimilarity (embedding1 embedding2 : List ℝ) :
    Except String ℝ :=
  if embedding1.length ≠ embedding2.length then
    .error "Embedding size mismatch"
  else
    let dotProduct := dotList embedding1 embedding2
    let norm1 := sumSq embedding1
    let norm2 := sumSq embedding2
    .ok (dotProduct / (Real.sqrt norm1 * Real.sqrt norm2))

/-- The `for (const stored of storedEmbeddings)` loop of the lib
`findBestMatch` (src/lib/faceRecognition.ts, lines 400-412); an exception
thrown by `cosineSimilarity` aborts the whole scan. -/
noncomputable def findBestMatchLoop (liveEmbedding : List ℝ) :
    List StoredEmbedding → Option BestMatch → Except String (Option BestMatch)
  | [], bestMatch => .ok bestMatch
  | stored :: rest, bestMatch =>
    match cosineSimilarity liveEmbedding stored.embedding with
    | .error e => .error e
    | .ok similarity =>
      let best' :=
        if SIMILARITY_THRESHOLD ≤ similarity then
          match bestMatch with
          | none => some ⟨stored.studentId, similarity⟩
          | some b =>
            if b.similarity < similarity then some ⟨stored.studentId, similarity⟩
            else some b
        else bestMatch
      findBestMatchLoop liveEmbedding rest best'

/-- `findBestMatch` (src/lib/faceRecognition.ts, lines 387-421): an empty
enrollment list gives `null`; there is no empty-query guard, and the loop
starts from `bestMatch = null`. -/
noncomputable def findBestMatch (liveEmbedding : List ℝ)
    (storedEmbeddings : List StoredEmbedding) :
    Except String (Option BestMatch) :=
  if storedEmbeddings.length = 0 then .ok none
  else findBestMatchLoop liveEmbedding storedEmbeddings none

end FaceLib

/-! ## Helper lemmas -/

theorem sumSq_eq_zero : ∀ v : List ℝ, (∀ x ∈ v, x = 0) → sumSq v = 0 := by
  intro v
  induction v with
  | nil => intro _; rfl
  | cons x xs ih =>
    intro hv
    have hx := hv x (List.mem_cons_self x xs)
    have hxs := ih (fun y hy => hv y (List.mem_cons_of_mem x hy))
    simp [sumSq, hx, hxs]

theorem dotList_comm : ∀ a b : List ℝ, dotList a b = dotList b a := by
  intro a
  induction a with
  | nil => intro b; cases b <;> rfl
  | cons x xs ih =>
    intro b
    cases b with
    | nil => rfl
    | cons y ys => simp only [dotList, ih ys, mul_comm]

/-- A length mismatch makes the defensive `cosineSimilarity` return `0`
without throwing. -/
theorem cosineSimilarity_length_ne {a b : JSInput}
    (h : (FaceUtils.ensureArray a).length ≠ (FaceUtils.ensureArray b).length) :
    FaceUtils.cosineSimilarity a b = 0 := by
  simp only [FaceUtils.cosineSimilarity]
  rw [if_pos h]

/-! ## Claims C4–C8 -/

/-- C4: `findBestMatch` (threshold-generalized) returns `NoMatch` on an
empty enrollment set for EVERY query descriptor `q0`, and on any
enrollment set when the query `q` has zero effective length after
`FaceUtils.ensureArray`; both are plain returns of `null`, no error path
exists (the Lean function is total). -/
theorem claim_C4_empty_cases (t : ℝ) (q0 q : JSInput)
    (s : List FaceUtils.StoredEmbedding) (hq : (FaceUtils.ensureArray q).length = 0) :
    FaceUtils.findBestMatchWith t q0 [] = none ∧
    FaceUtils.findBestMatchWith t q s = none := by
  constructor
  · rfl
  · cases s with
    | nil => rfl
    | cons a l => simp [FaceUtils.findBestMatchWith, hq]

theorem claim_C4_empty_cases_witness :
    FaceUtils.findBestMatchWith 0.6 (JSInput.arr [1, 2]) [] = none ∧
    FaceUtils.findBestMatchWith 0.6 JSInput.null
      [⟨"A", JSInput.arr [1]⟩] = none :=
  claim_C4_empty_cases 0.6 (JSInput.arr [1, 2]) JSInput.null
    [⟨"A", JSInput.arr [1]⟩] rfl

/-- C5: with equal lengths, a zero L2 norm on either side zeroes the
denominator `sqrt norm1 * sqrt norm2`, and the guard `denom === 0` makes
`cosineSimilarity` return exactly `0` without dividing. -/
theorem claim_C5_zero_norm_guard (e1 e2 : JSInput)
    (hlen : (FaceUtils.ensureArray e1).length = (FaceUtils.ensureArray e2).length)
    (h0 : Real.sqrt (sumSq (FaceUtils.ensureArray e1)) = 0 ∨
      Real.sqrt (sumSq (FaceUtils.ensureArray e2)) = 0) :
    FaceUtils.cosineSimilarity e1 e2 = 0 := by
  simp only [FaceUtils.cosineSimilarity]
  rw [if_neg (not_ne_iff.mpr hlen), if_pos]
  rcases h0 with h | h
  · rw [h, zero_mul]
  · rw [h, mul_zero]

theorem claim_C5_zero_norm_guard_witness :
    FaceUtils.cosineSimilarity (JSInput.arr [0]) (JSInput.arr [3]) = 0 :=
  claim_C5_zero_norm_guard (JSInput.arr [0]) (JSInput.arr [3]) rfl
    (Or.inl (by simp [FaceUtils.ensureArray, sumSq]))

/-- C6: an all-zero vector (of any length, including the empty one) has
`norm = sqrt 0 = 0`, so `normalizeEmbedding` takes the `norm === 0`
branch and returns the input unchanged; no division happens. -/
theorem claim_C6_zero_vector_fixpoint (v : List ℝ) (hv : ∀ x ∈ v, x = 0) :
    FaceUtils.normalizeEmbedding v = v := by
  simp [FaceUtils.normalizeEmbedding, sumSq_eq_zero v hv]

theorem claim_C6_zero_vector_fixpoint_witness :
    FaceUtils.normalizeEmbedding [0, 0] = [0, 0] :=
  claim_C6_zero_vector_fixpoint [0, 0]
    (by intro x hx; simp at hx; exact hx)

/-- C7: when the L2 norm is non-zero, `normalizeEmbedding` divides every
component by `sqrt (Σ v[j]^2)` and preserves the length. -/
theorem claim_C7_normalize_formula (v : List ℝ)
    (hv : Real.sqrt (sumSq v) ≠ 0) :
    FaceUtils.normalizeEmbedding v =
      v.map (fun x => x / Real.sqrt (sumSq v)) ∧
    (FaceUtils.normalizeEmbedding v).length = v.length := by
  constructor
  · simp [FaceUtils.normalizeEmbedding, hv]
  · simp [FaceUtils.normalizeEmbedding, hv]

theorem claim_C7_normalize_formula_witness :
    FaceUtils.normalizeEmbedding [1] =
      [(1 : ℝ)].map (fun x => x / Real.sqrt (sumSq [1])) ∧
    (FaceUtils.normalizeEmbedding [1]).length = [(1 : ℝ)].length :=
  claim_C7_normalize_formula [1] (by simp [sumSq])

/-- C8: `cosineSimilarity` is symmetric for all inputs, including
mismatched or degenerate ones: the length guard, the dot product and the
denominator are all symmetric in the two arguments. -/
theorem claim_C8_symmetry (a b : JSInput) :
    FaceUtils.cosineSimilarity a b = FaceUtils.cosineSimilarity b a := by
  simp only [FaceUtils.cosineSimilarity]
  rcases eq_or_ne (FaceUtils.ensureArray a).length (FaceUtils.ensureArray b).length with h | h
  · rw [if_neg (not_ne_iff.mpr h), if_neg (not_ne_iff.mpr h.symm),
      dotList_comm, mul_comm (Real.sqrt (sumSq (FaceUtils.ensureArray a)))]
  · rw [if_pos h, if_pos h.symm]

/-! ## Claims C2 and C3: fold lemmas for the matcher loop -/

theorem matchStep_of_not_le (t : ℝ) (la : List ℝ) (best : Option BestMatch)
    (s : FaceUtils.StoredEmbedding) (h : ¬ t ≤ FaceUtils.simTo la s) :
    FaceUtils.matchStep t la best s = best := by
  simp [FaceUtils.matchStep, h]

theorem foldl_matchStep_filter (t : ℝ) (la : List ℝ)
    (p : FaceUtils.StoredEmbedding → Bool)
    (hskip : ∀ best s, p s = false → FaceUtils.matchStep t la best s = best) :
    ∀ (l : List FaceUtils.StoredEmbedding) (best : Option BestMatch),
      (l.filter p).foldl (FaceUtils.matchStep t la) best =
        l.foldl (FaceUtils.matchStep t la) best := by
  intro l
  induction l with
  | nil => intro best; rfl
  | cons s rest ih =>
    intro best
    cases hp : p s with
    | true => simp [List.filter_cons, hp, ih]
    | false => simp [List.filter_cons, hp, ih, hskip best s hp]

theorem foldl_matchStep_ge_threshold (t : ℝ) (la : List ℝ) :
    ∀ (l : List FaceUtils.StoredEmbedding) (best : Option BestMatch),
      (∀ b, best = some b → t ≤ b.similarity) →
      ∀ m, l.foldl (FaceUtils.matchStep t la) best = some m →
        t ≤ m.similarity := by
  intro l
  induction l with
  | nil => intro best hb m hm; exact hb m hm
  | cons s rest ih =>
    intro best hb m hm
    rw [List.foldl_cons] at hm
    refine ih _ ?_ m hm
    intro b hb'
    by_cases hts : t ≤ FaceUtils.simTo la s
    · cases best with
      | none =>
        simp only [FaceUtils.matchStep, if_pos hts] at hb'
        cases hb'
        exact hts
      | some b0 =>
        simp only [FaceUtils.matchStep, if_pos hts] at hb'
        by_cases hlt : b0.similarity < FaceUtils.simTo la s
        · rw [if_pos hlt] at hb'
          cases hb'
          exact hts
        · rw [if_neg hlt] at hb'
          cases hb'
          exact hb _ rfl
    · rw [matchStep_of_not_le t la best s hts] at hb'
      exact hb b hb'

/-- C2: a length mismatch makes `cosineSimilarity` return `0.0` (it never
throws — the Lean embedding is a total function into `ℝ`), and any record
whose `ensureArray` image has a different length than the query's is
excluded from candidacy: filtering such records out of the enrollment set
does not change the result of `findBestMatch`. -/
theorem claim_C2_length_mismatch (a b : JSInput)
    (hab : (FaceUtils.ensureArray a).length ≠ (FaceUtils.ensureArray b).length)
    (q : JSInput) (stored : List FaceUtils.StoredEmbedding) :
    FaceUtils.cosineSimilarity a b = 0 ∧
    FaceUtils.findBestMatch q stored =
      FaceUtils.findBestMatch q (stored.filter (fun s =>
        decide ((FaceUtils.ensureArray s.embedding).length =
          (FaceUtils.ensureArray q).length))) := by
  refine ⟨cosineSimilarity_length_ne hab, ?_⟩
  have hskip : ∀ (best : Option BestMatch) (s : FaceUtils.StoredEmbedding),
      (fun s => decide ((FaceUtils.ensureArray s.embedding).length =
        (FaceUtils.ensureArray q).length)) s = false →
      FaceUtils.matchStep FaceUtils.SIMILARITY_THRESHOLD
        (FaceUtils.ensureArray q) best s = best := by
    intro best s hp
    have hne : (FaceUtils.ensureArray s.embedding).length ≠
        (FaceUtils.ensureArray q).length := of_decide_eq_false hp
    have hsim : FaceUtils.simTo (FaceUtils.ensureArray q) s = 0 :=
      cosineSimilarity_length_ne (fun h => hne h.symm)
    apply matchStep_of_not_le
    rw [hsim]
    norm_num [FaceUtils.SIMILARITY_THRESHOLD]
  cases stored with
  | nil => rfl
  | cons s0 l0 =>
    have hfilter := foldl_matchStep_filter FaceUtils.SIMILARITY_THRESHOLD
      (FaceUtils.ensureArray q)
      (fun s => decide ((FaceUtils.ensureArray s.embedding).length =
        (FaceUtils.ensureArray q).length)) hskip (s0 :: l0) none
    simp only [FaceUtils.findBestMatch, FaceUtils.findBestMatchWith]
    rw [if_neg (by simp : ¬((s0 :: l0).length = 0))]
    by_cases h2 : (FaceUtils.ensureArray q).length = 0
    · rw [if_pos h2]
      by_cases hf : ((s0 :: l0).filter (fun s =>
          decide ((FaceUtils.ensureArray s.embedding).length =
            (FaceUtils.ensureArray q).length))).length = 0
      · rw [if_pos hf]
      · rw [if_neg hf, if_pos h2]
    · rw [if_neg h2]
      by_cases hf : ((s0 :: l0).filter (fun s =>
          decide ((FaceUtils.ensureArray s.embedding).length =
            (FaceUtils.ensureArray q).length))).length = 0
      · rw [if_pos hf]
        have hempty : (s0 :: l0).filter (fun s =>
            decide ((FaceUtils.ensureArray s.embedding).length =
              (FaceUtils.ensureArray q).length)) = [] :=
          List.length_eq_zero.mp hf
        rw [hempty] at hfilter
        exact hfilter.symm
      · rw [if_neg hf, if_neg h2]
        exact hfilter.symm

theorem claim_C2_length_mismatch_witness :
    FaceUtils.cosineSimilarity (JSInput.arr [1]) (JSInput.arr [1, 2]) = 0 ∧
    FaceUtils.findBestMatch JSInput.null [] =
      FaceUtils.findBestMatch JSInput.null (List.filter (fun s =>
        decide ((FaceUtils.ensureArray s.embedding).length =
          (FaceUtils.ensureArray JSInput.null).length)) []) :=
  claim_C2_length_mismatch (JSInput.arr [1]) (JSInput.arr [1, 2])
    (by norm_num [FaceUtils.ensureArray]) JSInput.null []

/-- C3: whenever `findBestMatch` returns a match, its score is at least
the configured threshold `SIMILARITY_THRESHOLD`, whose value is `0.6`. -/
theorem claim_C3_score_meets_threshold (q : JSInput)
    (s : List FaceUtils.StoredEmbedding) (m : BestMatch)
    (h : FaceUtils.findBestMatch q s = some m) :
    FaceUtils.SIMILARITY_THRESHOLD ≤ m.similarity ∧
    FaceUtils.SIMILARITY_THRESHOLD = (0.6 : ℝ) := by
  refine ⟨?_, rfl⟩
  simp only [FaceUtils.findBestMatch, FaceUtils.findBestMatchWith] at h
  by_cases h1 : s.length = 0
  · rw [if_pos h1] at h
    exact absurd h (by simp)
  · rw [if_neg h1] at h
    by_cases h2 : (FaceUtils.ensureArray q).length = 0
    · rw [if_pos h2] at h
      exact absurd h (by simp)
    · rw [if_neg h2] at h
      exact foldl_matchStep_ge_threshold FaceUtils.SIMILARITY_THRESHOLD
        (FaceUtils.ensureArray q) s none (by intro b hb; cases hb) m h

/-- Concrete evaluation used by the C3 witness: a query identical to the
single enrolled embedding matches with similarity `1`. -/
theorem findBestMatch_eval_example :
    FaceUtils.findBestMatch (JSInput.arr [1, 0])
      [⟨"A", JSInput.arr [1, 0]⟩] = some ⟨"A", 1⟩ := by
  norm_num [FaceUtils.findBestMatch, FaceUtils.findBestMatchWith,
    FaceUtils.matchStep, FaceUtils.simTo, FaceUtils.cosineSimilarity,
    FaceUtils.ensureArray, FaceUtils.SIMILARITY_THRESHOLD, sumSq, dotList]

theorem claim_C3_score_meets_threshold_witness :
    FaceUtils.SIMILARITY_THRESHOLD ≤ (BestMatch.mk "A" 1).similarity ∧
    FaceUtils.SIMILARITY_THRESHOLD = (0.6 : ℝ) :=
  claim_C3_score_meets_threshold (JSInput.arr [1, 0])
    [⟨"A", JSInput.arr [1, 0]⟩] ⟨"A", 1⟩ findBestMatch_eval_example

/-! ## Claim C10: the `ensureArray` coercion -/

theorem objCollect_length (f : Nat → Option ℝ) :
    ∀ (fuel i : Nat), (FaceUtils.objCollect f i fuel).length ≤ fuel := by
  intro fuel
  induction fuel with
  | zero => intro i; simp [FaceUtils.objCollect]
  | succ n ih =>
    intro i
    cases hf : f i with
    | none => simp [FaceUtils.objCollect, hf]
    | some x =>
      simp only [FaceUtils.objCollect, hf, List.length_cons]
      exact Nat.succ_le_succ (ih (i + 1))

theorem objCollect_stop (f : Nat → Option ℝ) (g : Nat → ℝ) :
    ∀ fuel k i, k ≤ fuel → f (i + k) = none →
      (∀ j, j < k → f (i + j) = some (g (i + j))) →
      FaceUtils.objCollect f i fuel = (List.range' i k).map g := by
  intro fuel
  induction fuel with
  | zero =>
    intro k i hk _ _
    have hk0 : k = 0 := Nat.le_zero.mp hk
    subst hk0
    simp [FaceUtils.objCollect]
  | succ n ih =>
    intro k i hk hnone hsome
    cases k with
    | zero =>
      have h0 : f i = none := by simpa using hnone
      simp [FaceUtils.objCollect, h0]
    | succ k0 =>
      have h0 : f i = some (g i) := by simpa using hsome 0 (Nat.succ_pos k0)
      have hnone' : f (i + 1 + k0) = none := by
        have heq : i + 1 + k0 = i + (k0 + 1) := by omega
        rw [heq]; exact hnone
      have hsome' : ∀ j, j < k0 → f (i + 1 + j) = some (g (i + 1 + j)) := by
        intro j hj
        have heq : i + 1 + j = i + (j + 1) := by omega
        rw [heq]
        exact hsome (j + 1) (Nat.succ_lt_succ hj)
      have htail := ih k0 (i + 1) (Nat.succ_le_succ_iff.mp hk) hnone' hsome'
      simp only [FaceUtils.objCollect, h0, htail, List.range', List.map_cons]

theorem objCollect_total (f : Nat → Option ℝ) (g : Nat → ℝ) :
    ∀ fuel i, (∀ j, j < fuel → f (i + j) = some (g (i + j))) →
      FaceUtils.objCollect f i fuel = (List.range' i fuel).map g := by
  intro fuel
  induction fuel with
  | zero => intro i _; simp [FaceUtils.objCollect]
  | succ n ih =>
    intro i hsome
    have h0 : f i = some (g i) := by simpa using hsome 0 (Nat.succ_pos n)
    have hsome' : ∀ j, j < n → f (i + 1 + j) = some (g (i + 1 + j)) := by
      intro j hj
      have heq : i + 1 + j = i + (j + 1) := by omega
      rw [heq]
      exact hsome (j + 1) (Nat.succ_lt_succ hj)
    have htail := ih (i + 1) hsome'
    simp only [FaceUtils.objCollect, h0, htail, List.range', List.map_cons]

/-- C10: `ensureArray` returns `[]` on `null`/`undefined`, passes `Array`
and `Float32Array` inputs through with every element preserved in order,
and reads a plain object at consecutive numeric keys `0, 1, 2, ...`,
stopping at the first absent key (`f k = none`) or at index 128, so an
object-shaped descriptor is truncated to at most its first 128 entries.
`cosineSimilarity` applies it to both arguments and `findBestMatch`
applies it to the query, so both are insensitive to re-wrapping an input
as the plain array `ensureArray` produces for it. -/
theorem claim_C10_ensureArray_coercion (xs ys : List ℝ)
    (f f' : Nat → Option ℝ) (g g' : Nat → ℝ) (k : Nat)
    (hk : k ≤ 128) (hfk : f k = none) (hf : ∀ i, i < k → f i = some (g i))
    (hf' : ∀ i, i < 128 → f' i = some (g' i)) :
    FaceUtils.ensureArray JSInput.null = [] ∧
    FaceUtils.ensureArray (JSInput.arr xs) = xs ∧
    FaceUtils.ensureArray (JSInput.float32 ys) = ys ∧
    FaceUtils.ensureArray (JSInput.obj f) = (List.range k).map g ∧
    FaceUtils.ensureArray (JSInput.obj f') = (List.range 128).map g' ∧
    (∀ h : Nat → Option ℝ,
      (FaceUtils.ensureArray (JSInput.obj h)).length ≤ 128) ∧
    (∀ a b : JSInput, FaceUtils.cosineSimilarity a b =
      FaceUtils.cosineSimilarity (JSInput.arr (FaceUtils.ensureArray a))
        (JSInput.arr (FaceUtils.ensureArray b))) ∧
    (∀ (q : JSInput) (s : List FaceUtils.StoredEmbedding),
      FaceUtils.findBestMatch q s =
        FaceUtils.findBestMatch (JSInput.arr (FaceUtils.ensureArray q)) s) := by
  refine ⟨rfl, rfl, rfl, ?_, ?_, ?_, fun a b => rfl, fun q s => rfl⟩
  · rw [List.range_eq_range']
    exact objCollect_stop f g 128 k 0 hk (by simpa using hfk)
      (by intro j hj; simpa using hf j hj)
  · rw [List.range_eq_range']
    exact objCollect_total f' g' 128 0 (by intro j hj; simpa using hf' j hj)
  · intro h
    exact objCollect_length h 128 0

theorem claim_C10_ensureArray_coercion_witness :
    FaceUtils.ensureArray JSInput.null = [] ∧
    FaceUtils.ensureArray (JSInput.arr [1]) = [1] ∧
    FaceUtils.ensureArray (JSInput.float32 [2]) = [2] ∧
    FaceUtils.ensureArray
        (JSInput.obj (fun i => if i < 2 then some 1 else none)) =
      (List.range 2).map (fun _ => (1 : ℝ)) ∧
    FaceUtils.ensureArray (JSInput.obj (fun i => some ((i : ℝ)))) =
      (List.range 128).map (fun i => ((i : ℝ))) ∧
    (∀ h : Nat → Option ℝ,
      (FaceUtils.ensureArray (JSInput.obj h)).length ≤ 128) ∧
    (∀ a b : JSInput, FaceUtils.cosineSimilarity a b =
      FaceUtils.cosineSimilarity (JSInput.arr (FaceUtils.ensureArray a))
        (JSInput.arr (FaceUtils.ensureArray b))) ∧
    (∀ (q : JSInput) (s : List FaceUtils.StoredEmbedding),
      FaceUtils.findBestMatch q s =
        FaceUtils.findBestMatch (JSInput.arr (FaceUtils.ensureArray q)) s) :=
  claim_C10_ensureArray_coercion [1] [2]
    (fun i => if i < 2 then some 1 else none) (fun i => some ((i : ℝ)))
    (fun _ => 1) (fun i => ((i : ℝ))) 2
    (by norm_num)
    (by norm_num)
    (by intro i hi; simp [hi])
    (fun i _ => rfl)

/-! ## Claim C1: first record attaining the maximum wins -/

theorem foldl_matchStep_spec (t : ℝ) (la : List ℝ) :
    ∀ l : List FaceUtils.StoredEmbedding,
      (l.foldl (FaceUtils.matchStep t la) none = none →
        ∀ u ∈ l, FaceUtils.simTo la u < t) ∧
      (∀ m : BestMatch, l.foldl (FaceUtils.matchStep t la) none = some m →
        t ≤ m.similarity ∧
        (∀ u ∈ l, t ≤ FaceUtils.simTo la u →
          FaceUtils.simTo la u ≤ m.similarity) ∧
        ∃ l1 s l2, l = l1 ++ s :: l2 ∧ s.studentId = m.studentId ∧
          FaceUtils.simTo la s = m.similarity ∧
          ∀ u ∈ l1, FaceUtils.simTo la u < m.similarity) := by
  intro l
  induction l using List.reverseRecOn with
  | nil =>
    constructor
    · intro _ u hu
      exact absurd hu (List.not_mem_nil u)
    · intro m hm
      exact Option.noConfusion hm
  | append_singleton l s ih =>
    obtain ⟨ihnone, ihsome⟩ := ih
    have hfold : (l ++ [s]).foldl (FaceUtils.matchStep t la) none =
        FaceUtils.matchStep t la (l.foldl (FaceUtils.matchStep t la) none) s := by
      rw [List.foldl_append, List.foldl_cons, List.foldl_nil]
    by_cases hts : t ≤ FaceUtils.simTo la s
    · cases hF : l.foldl (FaceUtils.matchStep t la) none with
      | none =>
        have hres : (l ++ [s]).foldl (FaceUtils.matchStep t la) none =
            some ⟨s.studentId, FaceUtils.simTo la s⟩ := by
          rw [hfold, hF]
          simp [FaceUtils.matchStep, hts]
        have hprev := ihnone hF
        constructor
        · intro hnone
          rw [hres] at hnone
          exact Option.noConfusion hnone
        · intro m hm
          rw [hres] at hm
          cases hm
          refine ⟨hts, ?_, l, s, [], rfl, rfl, rfl, ?_⟩
          · intro u hu hque
            rcases List.mem_append.mp hu with hl | hs1
            · exact le_of_lt (lt_of_lt_of_le (hprev u hl) hts)
            · rw [List.mem_singleton.mp hs1]
          · intro u hu
            exact lt_of_lt_of_le (hprev u hu) hts
      | some b =>
        obtain ⟨hbth, hbmax, l1, s0, l2, hdec, hid, hsim, hfirst⟩ := ihsome b hF
        by_cases hlt : b.similarity < FaceUtils.simTo la s
        · have hres : (l ++ [s]).foldl (FaceUtils.matchStep t la) none =
              some ⟨s.studentId, FaceUtils.simTo la s⟩ := by
            rw [hfold, hF]
            simp [FaceUtils.matchStep, hts, hlt]
          constructor
          · intro hnone
            rw [hres] at hnone
            exact Option.noConfusion hnone
          · intro m hm
            rw [hres] at hm
            cases hm
            refine ⟨hts, ?_, l, s, [], rfl, rfl, rfl, ?_⟩
            · intro u hu hque
              rcases List.mem_append.mp hu with hl | hs1
              · exact le_of_lt (lt_of_le_of_lt (hbmax u hl hque) hlt)
              · rw [List.mem_singleton.mp hs1]
            · intro u hu
              rcases le_or_lt t (FaceUtils.simTo la u) with hq | hq
              · exact lt_of_le_of_lt (hbmax u hu hq) hlt
              · exact lt_of_lt_of_le hq hts
        · have hres : (l ++ [s]).foldl (FaceUtils.matchStep t la) none =
              some b := by
            rw [hfold, hF]
            simp [FaceUtils.matchStep, hts, hlt]
          constructor
          · intro hnone
            rw [hres] at hnone
            exact Option.noConfusion hnone
          · intro m hm
            rw [hres] at hm
            cases hm
            refine ⟨hbth, ?_, l1, s0, l2 ++ [s], ?_, hid, hsim, hfirst⟩
            · intro u hu hque
              rcases List.mem_append.mp hu with hl | hs1
              · exact hbmax u hl hque
              · rw [List.mem_singleton.mp hs1]
                exact not_lt.mp hlt
            · rw [hdec]
              simp
    · have hres : (l ++ [s]).foldl (FaceUtils.matchStep t la) none =
          l.foldl (FaceUtils.matchStep t la) none := by
        rw [hfold, matchStep_of_not_le t la _ s hts]
      constructor
      · intro hnone
        rw [hres] at hnone
        intro u hu
        rcases List.mem_append.mp hu with hl | hs1
        · exact ihnone hnone u hl
        · rw [List.mem_singleton.mp hs1]
          exact not_le.mp hts
      · intro m hm
        rw [hres] at hm
        obtain ⟨hbth, hbmax, l1, s0, l2, hdec, hid, hsim, hfirst⟩ := ihsome m hm
        refine ⟨hbth, ?_, l1, s0, l2 ++ [s], ?_, hid, hsim, hfirst⟩
        · intro u hu hque
          rcases List.mem_append.mp hu with hl | hs1
          · exact hbmax u hl hque
          · rw [List.mem_singleton.mp hs1] at hque
            exact absurd hque hts
        · rw [hdec]
          simp

/-- C1: if `findBestMatch` (threshold-generalized) returns a match `m`,
the score `m.similarity` is the maximum similarity over all records
meeting the threshold, and the matched record is the FIRST one attaining
that maximum: the enrollment list splits as `l1 ++ s :: l2` where `s`
yields exactly `m` and every record in `l1` has strictly smaller
similarity (so later records with equal similarity never displace an
earlier best candidate). -/
theorem claim_C1_first_max_wins (t : ℝ) (q : JSInput)
    (stored : List FaceUtils.StoredEmbedding) (m : BestMatch)
    (h : FaceUtils.findBestMatchWith t q stored = some m) :
    t ≤ m.similarity ∧
    (∀ u ∈ stored, t ≤ FaceUtils.simTo (FaceUtils.ensureArray q) u →
      FaceUtils.simTo (FaceUtils.ensureArray q) u ≤ m.similarity) ∧
    ∃ l1 s l2, stored = l1 ++ s :: l2 ∧ s.studentId = m.studentId ∧
      FaceUtils.simTo (FaceUtils.ensureArray q) s = m.similarity ∧
      ∀ u ∈ l1, FaceUtils.simTo (FaceUtils.ensureArray q) u < m.similarity := by
  simp only [FaceUtils.findBestMatchWith] at h
  by_cases h1 : stored.length = 0
  · rw [if_pos h1] at h
    exact absurd h (by simp)
  · rw [if_neg h1] at h
    by_cases h2 : (FaceUtils.ensureArray q).length = 0
    · rw [if_pos h2] at h
      exact absurd h (by simp)
    · rw [if_neg h2] at h
      exact (foldl_matchStep_spec t (FaceUtils.ensureArray q) stored).2 m h

/-- Concrete evaluation used by the C1 witness, at threshold `0.5`. -/
theorem findBestMatchWith_eval_example :
    FaceUtils.findBestMatchWith 0.5 (JSInput.arr [1, 0])
      [⟨"B", JSInput.arr [1, 0]⟩] = some ⟨"B", 1⟩ := by
  norm_num [FaceUtils.findBestMatchWith, FaceUtils.matchStep,
    FaceUtils.simTo, FaceUtils.cosineSimilarity, FaceUtils.ensureArray,
    sumSq, dotList]

theorem claim_C1_first_max_wins_witness :
    (0.5 : ℝ) ≤ (BestMatch.mk "B" 1).similarity ∧
    (∀ u ∈ [(⟨"B", JSInput.arr [1, 0]⟩ : FaceUtils.StoredEmbedding)],
      (0.5 : ℝ) ≤ FaceUtils.simTo (FaceUtils.ensureArray (JSInput.arr [1, 0])) u →
      FaceUtils.simTo (FaceUtils.ensureArray (JSInput.arr [1, 0])) u ≤
        (BestMatch.mk "B" 1).similarity) ∧
    ∃ l1 s l2,
      [(⟨"B", JSInput.arr [1, 0]⟩ : FaceUtils.StoredEmbedding)] =
        l1 ++ s :: l2 ∧
      s.studentId = (BestMatch.mk "B" 1).studentId ∧
      FaceUtils.simTo (FaceUtils.ensureArray (JSInput.arr [1, 0])) s =
        (BestMatch.mk "B" 1).similarity ∧
      ∀ u ∈ l1, FaceUtils.simTo (FaceUtils.ensureArray (JSInput.arr [1, 0])) u <
        (BestMatch.mk "B" 1).similarity :=
  claim_C1_first_max_wins 0.5 (JSInput.arr [1, 0])
    [⟨"B", JSInput.arr [1, 0]⟩] ⟨"B", 1⟩ findBestMatchWith_eval_example


/-! ## Claim C9: agreement of the two implementations -/

theorem lib_cosineSimilarity_eq (a b : List ℝ) (h : a.length = b.length) :
    FaceLib.cosineSimilarity a b =
      .ok (FaceUtils.cosineSimilarity (JSInput.arr a) (JSInput.arr b)) := by
  simp only [FaceLib.cosineSimilarity, FaceUtils.cosineSimilarity,
    FaceUtils.ensureArray]
  rw [if_neg (not_ne_iff.mpr h), if_neg (not_ne_iff.mpr h)]
  by_cases hd : Real.sqrt (sumSq a) * Real.sqrt (sumSq b) = 0
  · rw [if_pos hd, hd, div_zero]
  · rw [if_neg hd]

theorem lib_findBestMatchLoop_eq (q : List ℝ) :
    ∀ l : List FaceLib.StoredEmbedding,
      (∀ s ∈ l, s.embedding.length = q.length) →
      ∀ best : Option BestMatch,
        FaceLib.findBestMatchLoop q l best =
          .ok ((l.map (fun s => (⟨s.studentId, JSInput.arr s.embedding⟩ :
            FaceUtils.StoredEmbedding))).foldl
            (FaceUtils.matchStep FaceUtils.SIMILARITY_THRESHOLD q) best) := by
  intro l
  induction l with
  | nil => intro _ best; rfl
  | cons s rest ih =>
    intro hlen best
    have hs : s.embedding.length = q.length := hlen s (List.mem_cons_self s rest)
    have hcos := lib_cosineSimilarity_eq q s.embedding hs.symm
    simp only [FaceLib.findBestMatchLoop, hcos, List.map_cons, List.foldl_cons]
    exact ih (fun u hu => hlen u (List.mem_cons_of_mem s hu)) _

theorem foldl_matchStep_id (t : ℝ) (la : List ℝ) :
    ∀ l : List FaceUtils.StoredEmbedding,
      (∀ u ∈ l, ¬ t ≤ FaceUtils.simTo la u) →
      ∀ best, l.foldl (FaceUtils.matchStep t la) best = best := by
  intro l
  induction l with
  | nil => intro _ best; rfl
  | cons s rest ih =>
    intro hlt best
    rw [List.foldl_cons,
      matchStep_of_not_le t la best s (hlt s (List.mem_cons_self s rest)),
      ih (fun u hu => hlt u (List.mem_cons_of_mem s hu)) best]

theorem cosineSimilarity_nil_nil :
    FaceUtils.cosineSimilarity (JSInput.arr []) (JSInput.arr []) = 0 := by
  norm_num [FaceUtils.cosineSimilarity, FaceUtils.ensureArray, sumSq, dotList]

/-- C9: on queries and enrollment sets that are plain number arrays of
one common length, the two coexisting `findBestMatch` implementations
agree: the lib version (whose `cosineSimilarity` throws on mismatch and
divides unguarded) returns `ok` of exactly the result the worklet-utils
version computes — same identity and same score, or both no-match. -/
theorem claim_C9_implementations_agree (q : List ℝ)
    (stored : List FaceLib.StoredEmbedding)
    (hlen : ∀ s ∈ stored, s.embedding.length = q.length) :
    FaceLib.findBestMatch q stored =
      .ok (FaceUtils.findBestMatch (JSInput.arr q)
        (stored.map (fun s => ⟨s.studentId, JSInput.arr s.embedding⟩))) := by
  cases stored with
  | nil => rfl
  | cons s0 rest =>
    simp only [FaceLib.findBestMatch, FaceUtils.findBestMatch,
      FaceUtils.findBestMatchWith, FaceUtils.ensureArray, List.map_cons]
    rw [if_neg (by simp : ¬((s0 :: rest).length = 0)),
      if_neg (by simp : ¬(((⟨s0.studentId, JSInput.arr s0.embedding⟩ :
        FaceUtils.StoredEmbedding) :: rest.map (fun s =>
          (⟨s.studentId, JSInput.arr s.embedding⟩ :
            FaceUtils.StoredEmbedding))).length = 0))]
    by_cases hq : q.length = 0
    · rw [if_pos hq]
      have hq0 : q = [] := List.length_eq_zero.mp hq
      rw [lib_findBestMatchLoop_eq q (s0 :: rest) hlen none]
      rw [foldl_matchStep_id FaceUtils.SIMILARITY_THRESHOLD q]
      intro u hu
      rcases List.mem_map.mp hu with ⟨s1, hs1, rfl⟩
      have hemb : s1.embedding = [] := by
        have := hlen s1 hs1
        rw [hq] at this
        exact List.length_eq_zero.mp this
      have hsim : FaceUtils.simTo q ⟨s1.studentId, JSInput.arr s1.embedding⟩ = 0 := by
        rw [FaceUtils.simTo, hq0, hemb]
        exact cosineSimilarity_nil_nil
      rw [hsim]
      norm_num [FaceUtils.SIMILARITY_THRESHOLD]
    · rw [if_neg hq]
      exact lib_findBestMatchLoop_eq q (s0 :: rest) hlen none

theorem claim_C9_implementations_agree_witness :
    FaceLib.findBestMatch [1] [⟨"A", [1]⟩] =
      .ok (FaceUtils.findBestMatch (JSInput.arr [1])
        (List.map (fun s => ⟨s.studentId, JSInput.arr s.embedding⟩)
          [(⟨"A", [1]⟩ : FaceLib.StoredEmbedding)])) :=
  claim_C9_implementations_agree [1] [⟨"A", [1]⟩]
    (by intro s hs; simp at hs; rw [hs])
